import Mathlib

/-
  Verification of the arXiv ingestion pipeline orchestrator
  (src/services/metadata_fetcher.py, MetadataFetcher) against its
  natural-language specification.

  The orchestrator `fetch_and_process_papers` is shallowly embedded as a
  pure function.  The external adapters (arXiv client, PDF parser,
  paper repository, OpenSearch client) are modelled as a record of
  response functions: a call of an adapter in the Python code becomes a
  lookup of the corresponding response, an adapter raising an exception
  becomes the response `Except.error msg`, and a `None` return becomes
  `Except.ok none`.  Because the Python code processes records strictly
  sequentially, the run is a left fold over the fetched papers that
  threads the statistics dictionary, the database state and an event
  trace (the trace records each adapter invocation and each per-record
  commit, in execution order).
-/

namespace ArxivRag

/-- One paper record as produced by the arXiv source adapter
(schema `ArxivPaper`): identifier, title, authors, abstract,
categories, published date and PDF url. -/
structure ArxivPaper where
  arxiv_id : String
  title : String
  authors : List String
  abstract : String
  categories : List String
  published_date : String
  pdf_url : String
deriving Repr, DecidableEq

/-- One section of parsed PDF content ({title, content}). -/
structure PdfSection where
  title : String
  content : String
deriving Repr, DecidableEq

/-- Parsed PDF content as produced by the PDF parser service
(schema `PdfContent`). -/
structure PdfContent where
  raw_text : String
  sections : List PdfSection
  references : List String
  parser_used : Option String
  metadata : List (String × String)
deriving Repr, DecidableEq

/-- The row data handed to `PaperRepository.upsert` by
`MetadataFetcher._store_single_paper` (the `paper_data` dict made into
a `PaperCreate`).  Parsed-content fields are `Option` because the dict
only holds them when a parsed `pdf_content` is available. -/
structure PaperCreate where
  arxiv_id : String
  title : String
  authors : List String
  abstract : String
  categories : List String
  published_date : String
  pdf_url : String
  raw_text : Option String
  sections : Option (List PdfSection)
  references : Option (List String)
  parser_used : Option (Option String)
  parser_metadata : List (String × String)
  pdf_processed : Bool
  has_processing_date : Bool
deriving Repr, DecidableEq

/-- The `paper_data` dictionary built by
`MetadataFetcher._store_single_paper` (metadata_fetcher.py lines
311-344): the base metadata fields always come from the paper; when a
parsed `pdf_content` is present the parsed fields are added and
`pdf_processed` is `True`, otherwise `pdf_processed` is `False` with a
note in `parser_metadata`.  (The dateutil parse of a string
`published_date` is modelled as carrying the string through.) -/
def store_single_paper_data (paper : ArxivPaper) (pdf_content : Option PdfContent) :
    PaperCreate :=
  match pdf_content with
  | some c =>
    { arxiv_id := paper.arxiv_id
      title := paper.title
      authors := paper.authors
      abstract := paper.abstract
      categories := paper.categories
      published_date := paper.published_date
      pdf_url := paper.pdf_url
      raw_text := some c.raw_text
      sections := some c.sections
      references := some c.references
      parser_used := some c.parser_used
      parser_metadata := c.metadata
      pdf_processed := true
      has_processing_date := true }
  | none =>
    { arxiv_id := paper.arxiv_id
      title := paper.title
      authors := paper.authors
      abstract := paper.abstract
      categories := paper.categories
      published_date := paper.published_date
      pdf_url := paper.pdf_url
      raw_text := none
      sections := none
      references := none
      parser_used := none
      parser_metadata := [("note", "PDF not processed")]
      pdf_processed := false
      has_processing_date := false }

/-- The serialized dict of `MetadataFetcher._serialize_parsed_content`
combined into `paper_data` by `_store_papers_to_db` (the batch store
variant): `some (Except.ok c)` models a parsed paper whose content
serializes successfully, `some (Except.error e)` models serialization
raising (the except branch returning `pdf_processed: False` with the
error in `parser_metadata`), `none` models no parsed paper (the
`PDF processing not available` fallback). -/
def store_papers_to_db_data (paper : ArxivPaper)
    (parsed : Option (Except String PdfContent)) : PaperCreate :=
  match parsed with
  | some (Except.ok c) =>
    { arxiv_id := paper.arxiv_id
      title := paper.title
      authors := paper.authors
      abstract := paper.abstract
      categories := paper.categories
      published_date := paper.published_date
      pdf_url := paper.pdf_url
      raw_text := some c.raw_text
      sections := some c.sections
      references := some c.references
      parser_used := some c.parser_used
      parser_metadata := c.metadata
      pdf_processed := true
      has_processing_date := true }
  | some (Except.error e) =>
    { arxiv_id := paper.arxiv_id
      title := paper.title
      authors := paper.authors
      abstract := paper.abstract
      categories := paper.categories
      published_date := paper.published_date
      pdf_url := paper.pdf_url
      raw_text := none
      sections := none
      references := none
      parser_used := none
      parser_metadata := [("error", e)]
      pdf_processed := false
      has_processing_date := false }
  | none =>
    { arxiv_id := paper.arxiv_id
      title := paper.title
      authors := paper.authors
      abstract := paper.abstract
      categories := paper.categories
      published_date := paper.published_date
      pdf_url := paper.pdf_url
      raw_text := none
      sections := none
      references := none
      parser_used := none
      parser_metadata := [("note", "PDF processing not available")]
      pdf_processed := false
      has_processing_date := false }

/-- The database table of stored papers, keyed by `arxiv_id`
(models.paper.Paper has `arxiv_id` unique, indexed). -/
abbrev Db : Type := List (String × PaperCreate)

/-- Modelled from the spec: `PaperRepository.upsert`
(src/repositories/paper.py is imported by metadata_fetcher.py but is
not part of the source tree).  The spec's Persistence Adapter contract:
"upsert(record) -> StoredRecord | null; keyed by external identifier;
inserting a record whose identifier already exists updates the existing
row in place rather than erroring". -/
def upsertDb (db : Db) (p : PaperCreate) : Db :=
  if (db : List (String × PaperCreate)).any (fun kv => kv.1 = p.arxiv_id) then
    (db : List (String × PaperCreate)).map
      (fun kv => if kv.1 = p.arxiv_id then (kv.1, p) else kv)
  else
    (db : List (String × PaperCreate)) ++ [(p.arxiv_id, p)]

/-- The identifiers currently present in the table. -/
def dbKeys (db : Db) : List String :=
  (db : List (String × PaperCreate)).map Prod.fst

/-- Look up the stored row for an identifier. -/
def dbFind (db : Db) (id : String) : Option PaperCreate :=
  ((db : List (String × PaperCreate)).find? (fun kv => kv.1 = id)).map Prod.snd

/-- The behaviour of the external adapters during one run:
`fetch_papers` is the source adapter's answer for the run's query,
`download_pdf` the content fetch adapter (`Except.error` = raises,
`Except.ok none` = returns None), `parse_pdf` the parser adapter on a
downloaded path, `store_raises p c = some e` means the store of paper
`p` with content `c` raises `e`, and `index_result` is the OpenSearch
indexing outcome. -/
structure Adapters where
  fetch_papers : Except String (List ArxivPaper)
  download_pdf : ArxivPaper → Except String (Option String)
  parse_pdf : String → Except String (Option PdfContent)
  store_raises : ArxivPaper → Option PdfContent → Option String
  index_result : ArxivPaper → Option PdfContent → Except String Bool

/-- The keyword options of `fetch_and_process_papers`:
`process_pdfs`, `store_to_db`, whether a `db_session` was supplied,
`index_to_opensearch`, and whether `self.opensearch_client` is set. -/
structure RunOptions where
  process_pdfs : Bool
  store_to_db : Bool
  has_db_session : Bool
  index_to_opensearch : Bool
  has_opensearch_client : Bool
deriving Repr, DecidableEq

/-- The `results` statistics dictionary of `fetch_and_process_papers`
(metadata_fetcher.py lines 62-70). -/
structure Results where
  papers_fetched : Nat
  pdfs_downloaded : Nat
  pdfs_parsed : Nat
  papers_stored : Nat
  papers_indexed : Nat
  errors : List String
  processing_time : Nat
deriving Repr, DecidableEq

/-- Observable events of a run, in execution order: each adapter
invocation for a record, and the per-record database commit
(`db_session.commit()` in `_store_single_paper`). -/
inductive PipeEvent where
  | fetchCall (id : String)
  | parseCall (id : String)
  | storeCall (id : String)
  | commitEvent (id : String)
  | indexCall (id : String)
deriving Repr, DecidableEq

/-- State threaded through the sequential per-paper loop. -/
structure RunState where
  results : Results
  db : Db
  trace : List PipeEvent

/-- Steps 2a-2b of the per-paper loop (metadata_fetcher.py lines
98-117): when `process_pdfs`, call `download_pdf`; a raise escapes to
the per-record handler (`Except.error`); a `None` path is only logged;
on a path, count the download and call `parse_pdf`, whose raise is
caught locally (lines 113-115) and whose `None` is only logged, and a
parsed content is counted and kept.  Returns the parsed content kept in
`parsed_content`, the deltas to `pdfs_downloaded` and `pdfs_parsed`,
and the adapter-invocation events. -/
def content_stage (A : Adapters) (opts : RunOptions) (paper : ArxivPaper) :
    Except String (Option PdfContent × Nat × Nat × List PipeEvent) :=
  if opts.process_pdfs then
    match A.download_pdf paper with
    | Except.error e => Except.error e
    | Except.ok none =>
      Except.ok (none, 0, 0, [PipeEvent.fetchCall paper.arxiv_id])
    | Except.ok (some path) =>
      match A.parse_pdf path with
      | Except.ok (some c) =>
        Except.ok (some c, 1, 1,
          [PipeEvent.fetchCall paper.arxiv_id, PipeEvent.parseCall paper.arxiv_id])
      | Except.ok none =>
        Except.ok (none, 1, 0,
          [PipeEvent.fetchCall paper.arxiv_id, PipeEvent.parseCall paper.arxiv_id])
      | Except.error _ =>
        Except.ok (none, 1, 0,
          [PipeEvent.fetchCall paper.arxiv_id, PipeEvent.parseCall paper.arxiv_id])
  else
    Except.ok (none, 0, 0, [])

/-- Step 2c (lines 119-127): when `store_to_db` and a session exists,
call `_store_single_paper`; a raise is caught, logged and appended to
the error list as `DB error for {id}: {e}`; on success the stored count
is incremented (the upsert's return value is discarded by the caller)
and the row is committed.  Returns the stored-count delta, the error
entries, the events, and the row handed to the repository upsert. -/
def persist_stage (A : Adapters) (opts : RunOptions) (paper : ArxivPaper)
    (content : Option PdfContent) :
    Nat × List String × List PipeEvent × Option PaperCreate :=
  if opts.store_to_db && opts.has_db_session then
    match A.store_raises paper content with
    | some e =>
      (0, ["DB error for " ++ paper.arxiv_id ++ ": " ++ e],
        [PipeEvent.storeCall paper.arxiv_id], none)
    | none =>
      (1, [],
        [PipeEvent.storeCall paper.arxiv_id, PipeEvent.commitEvent paper.arxiv_id],
        some (store_single_paper_data paper content))
  else
    (0, [], [], none)

/-- Step 2d (lines 129-136): when `index_to_opensearch` and an
OpenSearch client exists, call `_index_single_paper`; a raise is caught
and only logged; a `True` return increments the indexed count. -/
def index_stage (A : Adapters) (opts : RunOptions) (paper : ArxivPaper)
    (content : Option PdfContent) : Nat × List PipeEvent :=
  if opts.index_to_opensearch && opts.has_opensearch_client then
    match A.index_result paper content with
    | Except.ok true => (1, [PipeEvent.indexCall paper.arxiv_id])
    | Except.ok false => (0, [PipeEvent.indexCall paper.arxiv_id])
    | Except.error _ => (0, [PipeEvent.indexCall paper.arxiv_id])
  else
    (0, [])

/-- One iteration of the sequential per-paper loop (lines 94-145).  A
raise escaping the content stage is caught by the per-record handler
(lines 141-145), which appends `Error processing {id}: {e}` and
continues; otherwise persist and index run and the state is updated. -/
def process_paper (A : Adapters) (opts : RunOptions) (st : RunState)
    (paper : ArxivPaper) : RunState :=
  match content_stage A opts paper with
  | Except.error e =>
    { results := { st.results with
        errors := st.results.errors ++
          ["Error processing " ++ paper.arxiv_id ++ ": " ++ e] }
      db := st.db
      trace := st.trace ++ [PipeEvent.fetchCall paper.arxiv_id] }
  | Except.ok (content, dDl, dPr, evC) =>
    let ps := persist_stage A opts paper content
    let ix := index_stage A opts paper content
    { results := { st.results with
        pdfs_downloaded := st.results.pdfs_downloaded + dDl
        pdfs_parsed := st.results.pdfs_parsed + dPr
        papers_stored := st.results.papers_stored + ps.1
        papers_indexed := st.results.papers_indexed + ix.1
        errors := st.results.errors ++ ps.2.1 }
      db := match ps.2.2.2 with
        | some d => upsertDb st.db d
        | none => st.db
      trace := st.trace ++ evC ++ ps.2.2.1 ++ ix.2 }

/-- `MetadataFetcher.fetch_and_process_papers` (lines 45-165).  The
source adapter raising is re-raised as a `PipelineException` wrapping
the cause (line 165); an empty fetch returns the zeroed report at once
(lines 86-88, before `processing_time` is measured); otherwise each
paper is processed sequentially and the measured elapsed time (the
`elapsed` parameter) is written into the report. -/
def fetch_and_process_papers (A : Adapters) (opts : RunOptions) (db0 : Db)
    (elapsed : Nat) : Except String (Results × Db × List PipeEvent) :=
  match A.fetch_papers with
  | Except.error e => Except.error ("Pipeline execution failed: " ++ e)
  | Except.ok papers =>
    let r1 : Results :=
      { papers_fetched := papers.length, pdfs_downloaded := 0, pdfs_parsed := 0,
        papers_stored := 0, papers_indexed := 0, errors := [],
        processing_time := 0 }
    match papers with
    | [] => Except.ok (r1, db0, [])
    | _ :: _ =>
      let final := papers.foldl (process_paper A opts)
        { results := r1, db := db0, trace := [] }
      Except.ok ({ final.results with processing_time := elapsed },
        final.db, final.trace)

/-- The loop state at the start of step 2 of a non-empty run. -/
def init_state (papers : List ArxivPaper) (db0 : Db) : RunState :=
  { results :=
      { papers_fetched := papers.length, pdfs_downloaded := 0, pdfs_parsed := 0,
        papers_stored := 0, papers_indexed := 0, errors := [],
        processing_time := 0 }
    db := db0
    trace := [] }

/-- The events one record contributes to the run trace. -/
def record_events (A : Adapters) (opts : RunOptions) (paper : ArxivPaper) :
    List PipeEvent :=
  match content_stage A opts paper with
  | Except.error _ => [PipeEvent.fetchCall paper.arxiv_id]
  | Except.ok (content, _, _, evC) =>
    evC ++ (persist_stage A opts paper content).2.2.1 ++
      (index_stage A opts paper content).2

/-- The error-list entries one record contributes. -/
def record_errors (A : Adapters) (opts : RunOptions) (paper : ArxivPaper) :
    List String :=
  match content_stage A opts paper with
  | Except.error e => ["Error processing " ++ paper.arxiv_id ++ ": " ++ e]
  | Except.ok (content, _, _, _) => (persist_stage A opts paper content).2.1

/-- The row one record upserts into the database, when its persist
stage runs and succeeds. -/
def record_stored (A : Adapters) (opts : RunOptions) (paper : ArxivPaper) :
    Option PaperCreate :=
  match content_stage A opts paper with
  | Except.error _ => none
  | Except.ok (content, _, _, _) => (persist_stage A opts paper content).2.2.2

/-- The contribution of one record to the stored counter. -/
def record_stored_delta (A : Adapters) (opts : RunOptions) (paper : ArxivPaper) :
    Nat :=
  match content_stage A opts paper with
  | Except.error _ => 0
  | Except.ok (content, _, _, _) => (persist_stage A opts paper content).1

/-- The database effect of one record of a run. -/
def store_step (A : Adapters) (opts : RunOptions) (d : Db) (paper : ArxivPaper) :
    Db :=
  match record_stored A opts paper with
  | some x => upsertDb d x
  | none => d

/-- The database produced by the sequence of per-record upserts of a
run, starting from `db`. -/
def run_db (A : Adapters) (opts : RunOptions) (papers : List ArxivPaper)
    (db : Db) : Db :=
  papers.foldl (store_step A opts) db

/-- A sample source record used in the concrete runs below. -/
def samplePaper (id : String) : ArxivPaper :=
  { arxiv_id := id, title := "title " ++ id, authors := ["au"],
    abstract := "abs", categories := ["cs.AI"],
    published_date := "2024-01-02", pdf_url := "http://x/" ++ id }

/-- A sample parsed PDF content. -/
def sampleContent : PdfContent :=
  { raw_text := "full text", sections := [{ title := "intro", content := "c" }],
    references := ["r1"], parser_used := some "docling", metadata := [] }

/-- The spec's three-record acceptance scenario: fetch yields A, B, C;
the content fetch returns a path for A and C and None for B; the parser
succeeds on every downloaded path; persistence succeeds. -/
def scenarioAdapters : Adapters :=
  { fetch_papers := Except.ok [samplePaper "A", samplePaper "B", samplePaper "C"]
    download_pdf := fun p =>
      if p.arxiv_id = "B" then Except.ok none
      else Except.ok (some ("/pdfs/" ++ p.arxiv_id))
    parse_pdf := fun _ => Except.ok (some sampleContent)
    store_raises := fun _ _ => none
    index_result := fun _ _ => Except.ok true }

/-- The scenario options: fetch content, persist, do not index. -/
def scenarioOpts : RunOptions :=
  { process_pdfs := true, store_to_db := true, has_db_session := true,
    index_to_opensearch := false, has_opensearch_client := true }

/-- One record whose parse raises and whose indexing raises. -/
def parseFailAdapters : Adapters :=
  { fetch_papers := Except.ok [samplePaper "X"]
    download_pdf := fun p => Except.ok (some ("/pdfs/" ++ p.arxiv_id))
    parse_pdf := fun _ => Except.error "parse blew up"
    store_raises := fun _ _ => none
    index_result := fun _ _ => Except.error "index down" }

/-- Options with every stage switched on. -/
def indexOnOpts : RunOptions :=
  { process_pdfs := true, store_to_db := true, has_db_session := true,
    index_to_opensearch := true, has_opensearch_client := true }

/-- One record whose database store raises. -/
def storeFailAdapters : Adapters :=
  { fetch_papers := Except.ok [samplePaper "Y"]
    download_pdf := fun p => Except.ok (some ("/pdfs/" ++ p.arxiv_id))
    parse_pdf := fun _ => Except.ok none
    store_raises := fun _ _ => some "db down"
    index_result := fun _ _ => Except.ok true }

/-- One record for which every adapter succeeds. -/
def allOkAdapters : Adapters :=
  { fetch_papers := Except.ok [samplePaper "P1"]
    download_pdf := fun p => Except.ok (some ("/pdfs/" ++ p.arxiv_id))
    parse_pdf := fun _ => Except.ok (some sampleContent)
    store_raises := fun _ _ => none
    index_result := fun _ _ => Except.ok true }

/-- A source adapter that raises. -/
def fetchFailAdapters : Adapters :=
  { fetch_papers := Except.error "arxiv unreachable"
    download_pdf := fun _ => Except.ok none
    parse_pdf := fun _ => Except.ok none
    store_raises := fun _ _ => none
    index_result := fun _ _ => Except.ok false }

/-- A source adapter that succeeds with no records. -/
def emptyFetchAdapters : Adapters :=
  { fetch_papers := Except.ok []
    download_pdf := fun _ => Except.ok none
    parse_pdf := fun _ => Except.ok none
    store_raises := fun _ _ => none
    index_result := fun _ _ => Except.ok false }

/-- Two records whose downloads succeed but whose parses always fail. -/
def parseNeverAdapters : Adapters :=
  { fetch_papers := Except.ok [samplePaper "M1", samplePaper "M2"]
    download_pdf := fun p => Except.ok (some ("/pdfs/" ++ p.arxiv_id))
    parse_pdf := fun _ => Except.ok none
    store_raises := fun _ _ => none
    index_result := fun _ _ => Except.ok true }

/-- Options asking for persistence although no session was passed. -/
def noSessionOpts : RunOptions :=
  { process_pdfs := true, store_to_db := true, has_db_session := false,
    index_to_opensearch := false, has_opensearch_client := false }

/-
  Interleaving model of `MetadataFetcher._process_pdfs_batch` together
  with `_download_and_parse_pipeline` (metadata_fetcher.py lines
  167-276): one task per paper, all started concurrently, each task
  acquiring the shared download semaphore for the download call,
  releasing it at the end of the `async with` block, then acquiring the
  shared parse semaphore for the parse call.  A state records each
  task's phase and the two semaphores' free permits; a step is one
  atomic phase change of one task under the asyncio interleaving.
-/

/-- The phase a single download+parse task is in. -/
inductive Phase where
  | ready
  | downloading
  | waitParse
  | parsing
  | done
deriving Repr, DecidableEq

/-- Instantaneous state of `_process_pdfs_batch`: the phase of every
task and the free permits of the download and parse semaphores. -/
structure BatchState where
  tasks : List Phase
  dlAvail : Nat
  parseAvail : Nat
deriving Repr, DecidableEq

/-- One interleaving step of the batch: a ready task acquires a
download permit; a downloading task releases its permit and either
proceeds to wait for a parse permit (path returned) or ends (download
failed, `return (False, None)`); a waiting task acquires a parse
permit; a parsing task releases it and ends. -/
inductive BatchStep : BatchState → BatchState → Prop where
  | startDownload (l r : List Phase) (dl pr : Nat) (h : 0 < dl) :
      BatchStep ⟨l ++ Phase.ready :: r, dl, pr⟩
        ⟨l ++ Phase.downloading :: r, dl - 1, pr⟩
  | downloadOk (l r : List Phase) (dl pr : Nat) :
      BatchStep ⟨l ++ Phase.downloading :: r, dl, pr⟩
        ⟨l ++ Phase.waitParse :: r, dl + 1, pr⟩
  | downloadFail (l r : List Phase) (dl pr : Nat) :
      BatchStep ⟨l ++ Phase.downloading :: r, dl, pr⟩
        ⟨l ++ Phase.done :: r, dl + 1, pr⟩
  | startParse (l r : List Phase) (dl pr : Nat) (h : 0 < pr) :
      BatchStep ⟨l ++ Phase.waitParse :: r, dl, pr⟩
        ⟨l ++ Phase.parsing :: r, dl, pr - 1⟩
  | finishParse (l r : List Phase) (dl pr : Nat) :
      BatchStep ⟨l ++ Phase.parsing :: r, dl, pr⟩
        ⟨l ++ Phase.done :: r, dl, pr + 1⟩

/-- How many tasks are in a given phase. -/
def countPhase (ph : Phase) (s : BatchState) : Nat :=
  s.tasks.count ph

/-- The start of a batch over `n` papers: `asyncio.Semaphore` created
with `max_concurrent_downloads` and `max_concurrent_parsing` free
permits, every pipeline task created but not yet holding a permit. -/
def initBatch (n maxDl maxP : Nat) : BatchState :=
  ⟨List.replicate n Phase.ready, maxDl, maxP⟩

/-- The states a batch over `n` papers with semaphore sizes `maxDl`,
`maxP` can reach under any interleaving. -/
def BatchReachable (n maxDl maxP : Nat) (s : BatchState) : Prop :=
  Relation.ReflTransGen BatchStep (initBatch n maxDl maxP) s

theorem store_step_some (A : Adapters) (opts : RunOptions) (d : Db)
    (paper : ArxivPaper) (x : PaperCreate)
    (h : record_stored A opts paper = some x) :
    store_step A opts d paper = upsertDb d x := by
  unfold store_step
  rw [h]

theorem store_step_none (A : Adapters) (opts : RunOptions) (d : Db)
    (paper : ArxivPaper) (h : record_stored A opts paper = none) :
    store_step A opts d paper = d := by
  unfold store_step
  rw [h]

theorem process_paper_trace (A : Adapters) (opts : RunOptions) (st : RunState)
    (paper : ArxivPaper) :
    (process_paper A opts st paper).trace = st.trace ++ record_events A opts paper := by
  unfold process_paper record_events
  cases h : content_stage A opts paper with
  | error e => simp
  | ok val =>
    obtain ⟨content, dDl, dPr, evC⟩ := val
    simp

theorem process_paper_errors (A : Adapters) (opts : RunOptions) (st : RunState)
    (paper : ArxivPaper) :
    (process_paper A opts st paper).results.errors
      = st.results.errors ++ record_errors A opts paper := by
  unfold process_paper record_errors
  cases h : content_stage A opts paper with
  | error e => simp
  | ok val =>
    obtain ⟨content, dDl, dPr, evC⟩ := val
    simp

theorem process_paper_db (A : Adapters) (opts : RunOptions) (st : RunState)
    (paper : ArxivPaper) :
    (process_paper A opts st paper).db = store_step A opts st.db paper := by
  unfold process_paper store_step record_stored
  cases h : content_stage A opts paper with
  | error e => simp
  | ok val =>
    obtain ⟨content, dDl, dPr, evC⟩ := val
    simp

theorem process_paper_stored (A : Adapters) (opts : RunOptions) (st : RunState)
    (paper : ArxivPaper) :
    (process_paper A opts st paper).results.papers_stored
      = st.results.papers_stored + record_stored_delta A opts paper := by
  unfold process_paper record_stored_delta
  cases h : content_stage A opts paper with
  | error e => simp
  | ok val =>
    obtain ⟨content, dDl, dPr, evC⟩ := val
    simp

theorem foldl_trace (A : Adapters) (opts : RunOptions) (papers : List ArxivPaper)
    (st : RunState) :
    (papers.foldl (process_paper A opts) st).trace
      = st.trace ++ (papers.map (record_events A opts)).flatten := by
  induction papers generalizing st with
  | nil => simp
  | cons p rest ih =>
    simp only [List.foldl_cons, List.map_cons, List.flatten]
    rw [ih, process_paper_trace, List.append_assoc]

theorem foldl_errors (A : Adapters) (opts : RunOptions) (papers : List ArxivPaper)
    (st : RunState) :
    (papers.foldl (process_paper A opts) st).results.errors
      = st.results.errors ++ (papers.map (record_errors A opts)).flatten := by
  induction papers generalizing st with
  | nil => simp
  | cons p rest ih =>
    simp only [List.foldl_cons, List.map_cons, List.flatten]
    rw [ih, process_paper_errors, List.append_assoc]

theorem foldl_db (A : Adapters) (opts : RunOptions) (papers : List ArxivPaper)
    (st : RunState) :
    (papers.foldl (process_paper A opts) st).db = run_db A opts papers st.db := by
  induction papers generalizing st with
  | nil => simp [run_db]
  | cons p rest ih =>
    simp only [List.foldl_cons, run_db]
    rw [ih, process_paper_db]
    rfl

theorem foldl_stored (A : Adapters) (opts : RunOptions) (papers : List ArxivPaper)
    (st : RunState) :
    (papers.foldl (process_paper A opts) st).results.papers_stored
      = st.results.papers_stored + (papers.map (record_stored_delta A opts)).sum := by
  induction papers generalizing st with
  | nil => simp
  | cons p rest ih =>
    simp only [List.foldl_cons, List.map_cons, List.sum_cons]
    rw [ih, process_paper_stored, Nat.add_assoc]

theorem any_key_iff (db : Db) (id : String) :
    (db.any (fun kv => kv.1 = id) = true) ↔ id ∈ dbKeys db := by
  rw [List.any_eq_true]
  unfold dbKeys
  rw [List.mem_map]
  constructor
  · rintro ⟨kv, hkv, hk⟩
    exact ⟨kv, hkv, by simpa using hk⟩
  · rintro ⟨kv, hkv, hk⟩
    exact ⟨kv, hkv, by simpa using hk⟩

theorem dbKeys_upsert (db : Db) (p : PaperCreate) :
    dbKeys (upsertDb db p)
      = if p.arxiv_id ∈ dbKeys db then dbKeys db else dbKeys db ++ [p.arxiv_id] := by
  unfold upsertDb
  by_cases h : p.arxiv_id ∈ dbKeys db
  · rw [if_pos ((any_key_iff db p.arxiv_id).mpr h), if_pos h]
    unfold dbKeys
    rw [List.map_map]
    apply List.map_congr_left
    intro kv hkv
    by_cases hk : kv.1 = p.arxiv_id <;> simp [hk]
  · rw [if_neg, if_neg h]
    · simp [dbKeys]
    · intro hc
      exact h ((any_key_iff db p.arxiv_id).mp hc)

theorem length_upsert (db : Db) (p : PaperCreate) :
    (upsertDb db p).length
      = if p.arxiv_id ∈ dbKeys db then db.length else db.length + 1 := by
  unfold upsertDb
  by_cases h : p.arxiv_id ∈ dbKeys db
  · rw [if_pos ((any_key_iff db p.arxiv_id).mpr h), if_pos h, List.length_map]
  · rw [if_neg, if_neg h]
    · simp
    · intro hc
      exact h ((any_key_iff db p.arxiv_id).mp hc)

theorem mem_dbKeys_upsert_self (db : Db) (p : PaperCreate) :
    p.arxiv_id ∈ dbKeys (upsertDb db p) := by
  rw [dbKeys_upsert]
  by_cases h : p.arxiv_id ∈ dbKeys db
  · rw [if_pos h]; exact h
  · rw [if_neg h]; simp

theorem mem_dbKeys_upsert_of_mem (db : Db) (p : PaperCreate) (y : String)
    (h : y ∈ dbKeys db) : y ∈ dbKeys (upsertDb db p) := by
  rw [dbKeys_upsert]
  by_cases hm : p.arxiv_id ∈ dbKeys db
  · rw [if_pos hm]; exact h
  · rw [if_neg hm]; exact List.mem_append_left _ h

theorem dbFind_upsert_self (db : Db) (p : PaperCreate) :
    dbFind (upsertDb db p) p.arxiv_id = some p := by
  unfold upsertDb dbFind
  by_cases h : p.arxiv_id ∈ dbKeys db
  · rw [if_pos ((any_key_iff db p.arxiv_id).mpr h), List.find?_map]
    have hcomp :
        ((fun kv : String × PaperCreate => decide (kv.1 = p.arxiv_id)) ∘
          (fun kv : String × PaperCreate =>
            if kv.1 = p.arxiv_id then (kv.1, p) else kv))
        = fun kv : String × PaperCreate => decide (kv.1 = p.arxiv_id) := by
      funext kv
      by_cases hk : kv.1 = p.arxiv_id <;> simp [hk]
    have hsome : (db.find? (fun kv => kv.1 = p.arxiv_id)).isSome := by
      rw [List.find?_isSome]
      rcases (any_key_iff db p.arxiv_id).mpr h with hany
      rcases List.any_eq_true.mp hany with ⟨kv, hkv, hk⟩
      exact ⟨kv, hkv, hk⟩
    obtain ⟨kv0, hfind⟩ := Option.isSome_iff_exists.mp hsome
    have hk0 : kv0.1 = p.arxiv_id := by
      have := List.find?_some hfind
      simpa using this
    show ((db.find? _).map _).map _ = some p
    rw [hcomp, hfind]
    simp [hk0]
  · rw [if_neg, List.find?_append]
    · have hnone : db.find? (fun kv => kv.1 = p.arxiv_id) = none := by
        rw [List.find?_eq_none]
        intro kv hkv
        simp only [decide_eq_true_eq]
        intro hc
        exact h (by
          rcases hc with hc
          exact (any_key_iff db p.arxiv_id).mp
            (List.any_eq_true.mpr ⟨kv, hkv, by simp [hc]⟩))
      rw [hnone]
      simp
    · intro hc
      exact h ((any_key_iff db p.arxiv_id).mp hc)

theorem dbFind_upsert_other (db : Db) (p : PaperCreate) (y : String)
    (h : y ≠ p.arxiv_id) : dbFind (upsertDb db p) y = dbFind db y := by
  unfold upsertDb dbFind
  by_cases hm : db.any (fun kv => kv.1 = p.arxiv_id) = true
  · rw [if_pos hm, List.find?_map]
    have hcomp :
        ((fun kv : String × PaperCreate => decide (kv.1 = y)) ∘
          (fun kv : String × PaperCreate =>
            if kv.1 = p.arxiv_id then (kv.1, p) else kv))
        = fun kv : String × PaperCreate => decide (kv.1 = y) := by
      funext kv
      by_cases hk : kv.1 = p.arxiv_id <;> simp [hk]
    rw [hcomp]
    cases hfind : db.find? (fun kv => kv.1 = y) with
    | none => simp
    | some kv0 =>
      have hk0 : kv0.1 = y := by
        have := List.find?_some hfind
        simpa using this
      have hne : ¬ kv0.1 = p.arxiv_id := by
        rw [hk0]; exact h
      simp [hne]
  · rw [if_neg hm, List.find?_append]
    have hnone : ([(p.arxiv_id, p)] : Db).find? (fun kv => kv.1 = y) = none := by
      simp [Ne.symm h]
    rw [hnone]
    simp

theorem record_stored_eq (A : Adapters) (opts : RunOptions) (paper : ArxivPaper)
    (x : PaperCreate) (h : record_stored A opts paper = some x) :
    ∃ content, x = store_single_paper_data paper content := by
  unfold record_stored at h
  cases hc : content_stage A opts paper with
  | error e => rw [hc] at h; simp at h
  | ok val =>
    obtain ⟨content, dDl, dPr, evC⟩ := val
    rw [hc] at h
    simp only at h
    unfold persist_stage at h
    by_cases hopt : opts.store_to_db && opts.has_db_session
    · rw [if_pos hopt] at h
      cases hs : A.store_raises paper content with
      | some e => rw [hs] at h; simp at h
      | none =>
        rw [hs] at h
        simp only [Option.some.injEq] at h
        exact ⟨content, h.symm⟩
    · rw [if_neg hopt] at h
      simp at h

theorem record_stored_id (A : Adapters) (opts : RunOptions) (paper : ArxivPaper)
    (x : PaperCreate) (h : record_stored A opts paper = some x) :
    x.arxiv_id = paper.arxiv_id := by
  obtain ⟨content, hx⟩ := record_stored_eq A opts paper x h
  subst hx
  cases content <;> rfl

theorem run_db_cons (A : Adapters) (opts : RunOptions) (q : ArxivPaper)
    (rest : List ArxivPaper) (db : Db) :
    run_db A opts (q :: rest) db = run_db A opts rest (store_step A opts db q) := by
  rfl

theorem mem_dbKeys_run_db_of_mem (A : Adapters) (opts : RunOptions)
    (papers : List ArxivPaper) (db : Db) (y : String) (h : y ∈ dbKeys db) :
    y ∈ dbKeys (run_db A opts papers db) := by
  induction papers generalizing db with
  | nil => simpa [run_db] using h
  | cons q rest ih =>
    rw [run_db_cons]
    cases hq : record_stored A opts q with
    | none =>
      rw [store_step_none A opts db q hq]
      exact ih db h
    | some x =>
      rw [store_step_some A opts db q x hq]
      exact ih (upsertDb db x) (mem_dbKeys_upsert_of_mem db x y h)

theorem stored_mem_dbKeys_run_db (A : Adapters) (opts : RunOptions)
    (papers : List ArxivPaper) (db : Db) (p : ArxivPaper) (x : PaperCreate)
    (hp : p ∈ papers) (hx : record_stored A opts p = some x) :
    x.arxiv_id ∈ dbKeys (run_db A opts papers db) := by
  induction papers generalizing db with
  | nil => cases hp
  | cons q rest ih =>
    rw [run_db_cons]
    rcases List.mem_cons.mp hp with hpq | hpr
    · rw [← hpq, store_step_some A opts db p x hx]
      exact mem_dbKeys_run_db_of_mem A opts rest (upsertDb db x) x.arxiv_id
        (mem_dbKeys_upsert_self db x)
    · exact ih (store_step A opts db q) hpr

theorem run_db_keys_and_length (A : Adapters) (opts : RunOptions)
    (papers : List ArxivPaper) (db : Db)
    (h : ∀ p ∈ papers, ∀ x, record_stored A opts p = some x →
      x.arxiv_id ∈ dbKeys db) :
    dbKeys (run_db A opts papers db) = dbKeys db ∧
      (run_db A opts papers db).length = db.length := by
  induction papers generalizing db with
  | nil => exact ⟨rfl, rfl⟩
  | cons q rest ih =>
    rw [run_db_cons]
    cases hq : record_stored A opts q with
    | none =>
      rw [store_step_none A opts db q hq]
      exact ih db (fun p hp x hx => h p (List.mem_cons_of_mem q hp) x hx)
    | some x =>
      rw [store_step_some A opts db q x hq]
      have hxk : x.arxiv_id ∈ dbKeys db := h q (List.mem_cons_self q rest) x hq
      have hkeys : dbKeys (upsertDb db x) = dbKeys db := by
        rw [dbKeys_upsert, if_pos hxk]
      have hlen : (upsertDb db x).length = db.length := by
        rw [length_upsert, if_pos hxk]
      have ihres := ih (upsertDb db x) (fun p hp y hy => by
        rw [hkeys]
        exact h p (List.mem_cons_of_mem q hp) y hy)
      exact ⟨ihres.1.trans hkeys, ihres.2.trans hlen⟩

theorem dbFind_run_db_preserved (A : Adapters) (opts : RunOptions)
    (papers : List ArxivPaper) (db : Db) (y : String)
    (h : ∀ p ∈ papers, ∀ x, record_stored A opts p = some x → x.arxiv_id ≠ y) :
    dbFind (run_db A opts papers db) y = dbFind db y := by
  induction papers generalizing db with
  | nil => rfl
  | cons q rest ih =>
    rw [run_db_cons]
    cases hq : record_stored A opts q with
    | none =>
      rw [store_step_none A opts db q hq]
      exact ih db (fun p hp x hx => h p (List.mem_cons_of_mem q hp) x hx)
    | some x =>
      rw [store_step_some A opts db q x hq]
      have hne : x.arxiv_id ≠ y := h q (List.mem_cons_self q rest) x hq
      have hstep : dbFind (upsertDb db x) y = dbFind db y :=
        dbFind_upsert_other db x y (fun hc => hne hc.symm)
      rw [ih (upsertDb db x)
        (fun p hp z hz => h p (List.mem_cons_of_mem q hp) z hz), hstep]

theorem dbFind_run_db_of_stored (A : Adapters) (opts : RunOptions)
    (papers : List ArxivPaper) (db : Db) (p : ArxivPaper) (x : PaperCreate)
    (hnodup : (papers.map ArxivPaper.arxiv_id).Nodup)
    (hp : p ∈ papers) (hx : record_stored A opts p = some x) :
    dbFind (run_db A opts papers db) p.arxiv_id = some x := by
  induction papers generalizing db with
  | nil => cases hp
  | cons q rest ih =>
    rw [run_db_cons]
    have hnodup2 : (rest.map ArxivPaper.arxiv_id).Nodup :=
      (List.nodup_cons.mp (by simpa using hnodup)).2
    rcases List.mem_cons.mp hp with hpq | hpr
    · have hqid : p.arxiv_id ∉ rest.map ArxivPaper.arxiv_id := by
        rw [hpq]
        exact (List.nodup_cons.mp (by simpa using hnodup)).1
      rw [← hpq, store_step_some A opts db p x hx]
      have hpres : dbFind (run_db A opts rest (upsertDb db x)) p.arxiv_id
          = dbFind (upsertDb db x) p.arxiv_id := by
        apply dbFind_run_db_preserved
        intro r hr z hz hc
        apply hqid
        rw [← hc, record_stored_id A opts r z hz]
        exact List.mem_map_of_mem ArxivPaper.arxiv_id hr
      rw [hpres]
      have hxid : x.arxiv_id = p.arxiv_id := record_stored_id A opts p x hx
      rw [← hxid]
      exact dbFind_upsert_self db x
    · exact ih (store_step A opts db q) hnodup2 hpr

/-- The invariant claimed of every stored row: the processed flag is
true exactly when the parsed-content fields are populated. -/
def flagOk (d : PaperCreate) : Prop :=
  d.pdf_processed = true ↔
    (d.raw_text.isSome ∧ d.sections.isSome ∧ d.references.isSome)

theorem store_single_paper_data_flagOk (paper : ArxivPaper)
    (c : Option PdfContent) : flagOk (store_single_paper_data paper c) := by
  cases c <;> simp [store_single_paper_data, flagOk]

theorem store_papers_to_db_data_flagOk (paper : ArxivPaper)
    (parsed : Option (Except String PdfContent)) :
    flagOk (store_papers_to_db_data paper parsed) := by
  rcases parsed with _ | e
  · simp [store_papers_to_db_data, flagOk]
  · rcases e with e | c <;> simp [store_papers_to_db_data, flagOk]

theorem upsert_flagOk (db : Db) (x : PaperCreate)
    (hdb : ∀ e ∈ db, flagOk e.2) (hx : flagOk x) :
    ∀ e ∈ upsertDb db x, flagOk e.2 := by
  intro e he
  unfold upsertDb at he
  by_cases hm : db.any (fun kv => kv.1 = x.arxiv_id) = true
  · rw [if_pos hm] at he
    rcases List.mem_map.mp he with ⟨kv, hkv, hmap⟩
    by_cases hk : kv.1 = x.arxiv_id
    · rw [if_pos hk] at hmap
      rw [← hmap]
      exact hx
    · rw [if_neg hk] at hmap
      rw [← hmap]
      exact hdb kv hkv
  · rw [if_neg hm] at he
    rcases List.mem_append.mp he with hi | hi
    · exact hdb e hi
    · rcases List.mem_singleton.mp hi with rfl
      exact hx

theorem run_db_flagOk (A : Adapters) (opts : RunOptions)
    (papers : List ArxivPaper) (db : Db) (hdb : ∀ e ∈ db, flagOk e.2) :
    ∀ e ∈ run_db A opts papers db, flagOk e.2 := by
  induction papers generalizing db with
  | nil => exact hdb
  | cons q rest ih =>
    rw [run_db_cons]
    cases hq : record_stored A opts q with
    | none =>
      rw [store_step_none A opts db q hq]
      exact ih db hdb
    | some x =>
      rw [store_step_some A opts db q x hq]
      obtain ⟨content, hx⟩ := record_stored_eq A opts q x hq
      exact ih (upsertDb db x)
        (upsert_flagOk db x hdb (hx ▸ store_single_paper_data_flagOk q content))

theorem content_stage_no_pdfs (A : Adapters) (opts : RunOptions) (p : ArxivPaper)
    (hpp : opts.process_pdfs = false) :
    content_stage A opts p = Except.ok (none, 0, 0, []) := by
  unfold content_stage
  rw [if_neg]
  rw [hpp]
  exact Bool.false_ne_true

theorem content_stage_dl_err (A : Adapters) (opts : RunOptions) (p : ArxivPaper)
    (s : String) (hpp : opts.process_pdfs = true)
    (hd : A.download_pdf p = Except.error s) :
    content_stage A opts p = Except.error s := by
  unfold content_stage
  rw [if_pos hpp, hd]

theorem content_stage_dl_none (A : Adapters) (opts : RunOptions) (p : ArxivPaper)
    (hpp : opts.process_pdfs = true) (hd : A.download_pdf p = Except.ok none) :
    content_stage A opts p
      = Except.ok (none, 0, 0, [PipeEvent.fetchCall p.arxiv_id]) := by
  unfold content_stage
  rw [if_pos hpp, hd]

theorem content_stage_parse_err (A : Adapters) (opts : RunOptions) (p : ArxivPaper)
    (path : String) (e : String) (hpp : opts.process_pdfs = true)
    (hd : A.download_pdf p = Except.ok (some path))
    (hp2 : A.parse_pdf path = Except.error e) :
    content_stage A opts p
      = Except.ok (none, 1, 0,
        [PipeEvent.fetchCall p.arxiv_id, PipeEvent.parseCall p.arxiv_id]) := by
  unfold content_stage
  rw [if_pos hpp, hd]
  simp only [hp2]

theorem content_stage_parse_none (A : Adapters) (opts : RunOptions) (p : ArxivPaper)
    (path : String) (hpp : opts.process_pdfs = true)
    (hd : A.download_pdf p = Except.ok (some path))
    (hp2 : A.parse_pdf path = Except.ok none) :
    content_stage A opts p
      = Except.ok (none, 1, 0,
        [PipeEvent.fetchCall p.arxiv_id, PipeEvent.parseCall p.arxiv_id]) := by
  unfold content_stage
  rw [if_pos hpp, hd]
  simp only [hp2]

theorem content_stage_parse_some (A : Adapters) (opts : RunOptions) (p : ArxivPaper)
    (path : String) (c : PdfContent) (hpp : opts.process_pdfs = true)
    (hd : A.download_pdf p = Except.ok (some path))
    (hp2 : A.parse_pdf path = Except.ok (some c)) :
    content_stage A opts p
      = Except.ok (some c, 1, 1,
        [PipeEvent.fetchCall p.arxiv_id, PipeEvent.parseCall p.arxiv_id]) := by
  unfold content_stage
  rw [if_pos hpp, hd]
  simp only [hp2]

theorem content_stage_error (A : Adapters) (opts : RunOptions) (p : ArxivPaper)
    (s : String) (h : content_stage A opts p = Except.error s) :
    A.download_pdf p = Except.error s := by
  by_cases hpp : opts.process_pdfs = true
  · cases hd : A.download_pdf p with
    | error s2 =>
      rw [content_stage_dl_err A opts p s2 hpp hd] at h
      injection h with h2
      rw [h2]
    | ok o =>
      exfalso
      cases o with
      | none =>
        rw [content_stage_dl_none A opts p hpp hd] at h
        exact Except.noConfusion h
      | some path =>
        cases hp2 : A.parse_pdf path with
        | error e2 =>
          rw [content_stage_parse_err A opts p path e2 hpp hd hp2] at h
          exact Except.noConfusion h
        | ok o2 =>
          cases o2 with
          | none =>
            rw [content_stage_parse_none A opts p path hpp hd hp2] at h
            exact Except.noConfusion h
          | some c =>
            rw [content_stage_parse_some A opts p path c hpp hd hp2] at h
            exact Except.noConfusion h
  · rw [content_stage_no_pdfs A opts p (Bool.not_eq_true _ ▸ hpp)] at h
    exact Except.noConfusion h

theorem content_stage_no_parse (A : Adapters) (opts : RunOptions) (p : ArxivPaper)
    (hparse : ∀ path c, A.parse_pdf path ≠ Except.ok (some c))
    (val : Option PdfContent × Nat × Nat × List PipeEvent)
    (h : content_stage A opts p = Except.ok val) : val.1 = none := by
  by_cases hpp : opts.process_pdfs = true
  · cases hd : A.download_pdf p with
    | error s2 =>
      rw [content_stage_dl_err A opts p s2 hpp hd] at h
      exact Except.noConfusion h
    | ok o =>
      cases o with
      | none =>
        rw [content_stage_dl_none A opts p hpp hd] at h
        injection h with h2
        rw [← h2]
      | some path =>
        cases hp2 : A.parse_pdf path with
        | error e2 =>
          rw [content_stage_parse_err A opts p path e2 hpp hd hp2] at h
          injection h with h2
          rw [← h2]
        | ok o2 =>
          cases o2 with
          | none =>
            rw [content_stage_parse_none A opts p path hpp hd hp2] at h
            injection h with h2
            rw [← h2]
          | some c => exact absurd hp2 (hparse path c)
  · rw [content_stage_no_pdfs A opts p (Bool.not_eq_true _ ▸ hpp)] at h
    injection h with h2
    rw [← h2]

theorem content_stage_events (A : Adapters) (opts : RunOptions) (p : ArxivPaper)
    (val : Option PdfContent × Nat × Nat × List PipeEvent)
    (h : content_stage A opts p = Except.ok val) :
    val.2.2.2 = [] ∨ val.2.2.2 = [PipeEvent.fetchCall p.arxiv_id] ∨
      val.2.2.2 = [PipeEvent.fetchCall p.arxiv_id, PipeEvent.parseCall p.arxiv_id] := by
  by_cases hpp : opts.process_pdfs = true
  · cases hd : A.download_pdf p with
    | error s2 =>
      rw [content_stage_dl_err A opts p s2 hpp hd] at h
      exact Except.noConfusion h
    | ok o =>
      cases o with
      | none =>
        rw [content_stage_dl_none A opts p hpp hd] at h
        injection h with h2
        rw [← h2]
        simp
      | some path =>
        cases hp2 : A.parse_pdf path with
        | error e2 =>
          rw [content_stage_parse_err A opts p path e2 hpp hd hp2] at h
          injection h with h2
          rw [← h2]
          simp
        | ok o2 =>
          cases o2 with
          | none =>
            rw [content_stage_parse_none A opts p path hpp hd hp2] at h
            injection h with h2
            rw [← h2]
            simp
          | some c =>
            rw [content_stage_parse_some A opts p path c hpp hd hp2] at h
            injection h with h2
            rw [← h2]
            simp
  · rw [content_stage_no_pdfs A opts p (Bool.not_eq_true _ ▸ hpp)] at h
    injection h with h2
    rw [← h2]
    simp

theorem process_paper_fetched (A : Adapters) (opts : RunOptions) (st : RunState)
    (paper : ArxivPaper) :
    (process_paper A opts st paper).results.papers_fetched
      = st.results.papers_fetched := by
  unfold process_paper
  cases h : content_stage A opts paper with
  | error e => simp
  | ok val =>
    obtain ⟨content, dDl, dPr, evC⟩ := val
    simp

theorem foldl_fetched (A : Adapters) (opts : RunOptions) (papers : List ArxivPaper)
    (st : RunState) :
    (papers.foldl (process_paper A opts) st).results.papers_fetched
      = st.results.papers_fetched := by
  induction papers generalizing st with
  | nil => rfl
  | cons p rest ih =>
    simp only [List.foldl_cons]
    rw [ih, process_paper_fetched]

theorem run_components (A : Adapters) (opts : RunOptions) (db0 : Db)
    (elapsed : Nat) (papers : List ArxivPaper)
    (hfetch : A.fetch_papers = Except.ok papers) (hne : papers ≠ []) :
    ∃ res db tr,
      fetch_and_process_papers A opts db0 elapsed = Except.ok (res, db, tr) ∧
      res.papers_fetched = papers.length ∧
      res.errors = (papers.map (record_errors A opts)).flatten ∧
      res.papers_stored = (papers.map (record_stored_delta A opts)).sum ∧
      db = run_db A opts papers db0 ∧
      tr = (papers.map (record_events A opts)).flatten := by
  cases papers with
  | nil => exact absurd rfl hne
  | cons q rest =>
    have hrun : fetch_and_process_papers A opts db0 elapsed
        = Except.ok
          ({ ((q :: rest).foldl (process_paper A opts)
                (init_state (q :: rest) db0)).results with
              processing_time := elapsed },
            ((q :: rest).foldl (process_paper A opts)
              (init_state (q :: rest) db0)).db,
            ((q :: rest).foldl (process_paper A opts)
              (init_state (q :: rest) db0)).trace) := by
      unfold fetch_and_process_papers
      rw [hfetch]
      rfl
    refine ⟨_, _, _, hrun, ?_, ?_, ?_, ?_, ?_⟩
    · simpa [init_state] using
        foldl_fetched A opts (q :: rest) (init_state (q :: rest) db0)
    · simpa [init_state] using
        foldl_errors A opts (q :: rest) (init_state (q :: rest) db0)
    · simpa [init_state] using
        foldl_stored A opts (q :: rest) (init_state (q :: rest) db0)
    · simpa [init_state] using
        foldl_db A opts (q :: rest) (init_state (q :: rest) db0)
    · simpa [init_state] using
        foldl_trace A opts (q :: rest) (init_state (q :: rest) db0)

theorem persist_stage_fail (A : Adapters) (opts : RunOptions) (p : ArxivPaper)
    (c : Option PdfContent) (e : String) (hstore : opts.store_to_db = true)
    (hsess : opts.has_db_session = true) (hr : A.store_raises p c = some e) :
    persist_stage A opts p c
      = (0, ["DB error for " ++ p.arxiv_id ++ ": " ++ e],
          [PipeEvent.storeCall p.arxiv_id], none) := by
  unfold persist_stage
  rw [if_pos (show (opts.store_to_db && opts.has_db_session) = true by
    simp [hstore, hsess])]
  simp only [hr]

theorem persist_stage_ok (A : Adapters) (opts : RunOptions) (p : ArxivPaper)
    (c : Option PdfContent) (hstore : opts.store_to_db = true)
    (hsess : opts.has_db_session = true) (hr : A.store_raises p c = none) :
    persist_stage A opts p c
      = (1, [],
          [PipeEvent.storeCall p.arxiv_id, PipeEvent.commitEvent p.arxiv_id],
          some (store_single_paper_data p c)) := by
  unfold persist_stage
  rw [if_pos (show (opts.store_to_db && opts.has_db_session) = true by
    simp [hstore, hsess])]
  simp only [hr]

theorem persist_stage_no_session (A : Adapters) (opts : RunOptions)
    (p : ArxivPaper) (c : Option PdfContent)
    (hsess : opts.has_db_session = false) :
    persist_stage A opts p c = (0, [], [], none) := by
  unfold persist_stage
  rw [if_neg]
  rw [hsess, Bool.and_false]
  exact Bool.false_ne_true

theorem index_stage_events (A : Adapters) (opts : RunOptions) (p : ArxivPaper)
    (c : Option PdfContent) :
    (index_stage A opts p c).2 = [] ∨
      (index_stage A opts p c).2 = [PipeEvent.indexCall p.arxiv_id] := by
  unfold index_stage
  split
  · split <;> simp
  · simp

theorem record_errors_store_fail (A : Adapters) (opts : RunOptions)
    (p : ArxivPaper) (e : String)
    (hstore : opts.store_to_db = true) (hsess : opts.has_db_session = true)
    (hdl : ∀ s, A.download_pdf p ≠ Except.error s)
    (hfail : ∀ c, A.store_raises p c = some e) :
    record_errors A opts p = ["DB error for " ++ p.arxiv_id ++ ": " ++ e] := by
  unfold record_errors
  cases hc : content_stage A opts p with
  | error s => exact absurd (content_stage_error A opts p s hc) (hdl s)
  | ok val =>
    obtain ⟨content, d1, d2, ev⟩ := val
    show (persist_stage A opts p content).2.1 = _
    rw [persist_stage_fail A opts p content e hstore hsess (hfail content)]

theorem commit_mem_record_events (A : Adapters) (opts : RunOptions)
    (p : ArxivPaper)
    (hstore : opts.store_to_db = true) (hsess : opts.has_db_session = true)
    (hdl : ∀ s, A.download_pdf p ≠ Except.error s)
    (hra : ∀ c, A.store_raises p c = none) :
    PipeEvent.commitEvent p.arxiv_id ∈ record_events A opts p := by
  unfold record_events
  cases hc : content_stage A opts p with
  | error s => exact absurd (content_stage_error A opts p s hc) (hdl s)
  | ok val =>
    obtain ⟨content, d1, d2, ev⟩ := val
    show PipeEvent.commitEvent p.arxiv_id
      ∈ ev ++ (persist_stage A opts p content).2.2.1 ++ _
    rw [persist_stage_ok A opts p content hstore hsess (hra content)]
    simp

theorem record_stored_metadata_only (A : Adapters) (opts : RunOptions)
    (p : ArxivPaper)
    (hstore : opts.store_to_db = true) (hsess : opts.has_db_session = true)
    (hparse : ∀ path c, A.parse_pdf path ≠ Except.ok (some c))
    (hdl : ∀ s, A.download_pdf p ≠ Except.error s)
    (hok : ∀ c, A.store_raises p c = none) :
    record_stored A opts p = some (store_single_paper_data p none) := by
  unfold record_stored
  cases hc : content_stage A opts p with
  | error s => exact absurd (content_stage_error A opts p s hc) (hdl s)
  | ok val =>
    have hnone : val.1 = none := content_stage_no_parse A opts p hparse val hc
    obtain ⟨content, d1, d2, ev⟩ := val
    have hcn : content = none := hnone
    show (persist_stage A opts p content).2.2.2 = _
    rw [hcn, persist_stage_ok A opts p none hstore hsess (hok none)]

theorem record_stored_no_session (A : Adapters) (opts : RunOptions)
    (p : ArxivPaper) (hsess : opts.has_db_session = false) :
    record_stored A opts p = none := by
  unfold record_stored
  cases hc : content_stage A opts p with
  | error s => rfl
  | ok val =>
    obtain ⟨content, d1, d2, ev⟩ := val
    show (persist_stage A opts p content).2.2.2 = none
    rw [persist_stage_no_session A opts p content hsess]

theorem record_stored_delta_no_session (A : Adapters) (opts : RunOptions)
    (p : ArxivPaper) (hsess : opts.has_db_session = false) :
    record_stored_delta A opts p = 0 := by
  unfold record_stored_delta
  cases hc : content_stage A opts p with
  | error s => rfl
  | ok val =>
    obtain ⟨content, d1, d2, ev⟩ := val
    show (persist_stage A opts p content).1 = 0
    rw [persist_stage_no_session A opts p content hsess]

theorem run_db_no_session (A : Adapters) (opts : RunOptions)
    (papers : List ArxivPaper) (db : Db)
    (hsess : opts.has_db_session = false) :
    run_db A opts papers db = db := by
  induction papers generalizing db with
  | nil => rfl
  | cons q rest ih =>
    rw [run_db_cons,
      store_step_none A opts db q (record_stored_no_session A opts q hsess)]
    exact ih db

theorem storeCall_not_mem_record_events (A : Adapters) (opts : RunOptions)
    (p : ArxivPaper) (id : String) (hsess : opts.has_db_session = false) :
    PipeEvent.storeCall id ∉ record_events A opts p := by
  unfold record_events
  cases hc : content_stage A opts p with
  | error s => simp
  | ok val =>
    obtain ⟨content, d1, d2, ev⟩ := val
    show PipeEvent.storeCall id
      ∉ ev ++ (persist_stage A opts p content).2.2.1 ++
        (index_stage A opts p content).2
    rw [persist_stage_no_session A opts p content hsess]
    have hev := content_stage_events A opts p (content, d1, d2, ev) hc
    simp only at hev
    have hix := index_stage_events A opts p content
    rcases hev with h0 | h0 | h0 <;> rcases hix with h1 | h1 <;>
      rw [h0, h1] <;> simp

theorem batch_step_inv (s s2 : BatchState) (h : BatchStep s s2) :
    countPhase Phase.downloading s2 + s2.dlAvail
        = countPhase Phase.downloading s + s.dlAvail ∧
      countPhase Phase.parsing s2 + s2.parseAvail
        = countPhase Phase.parsing s + s.parseAvail := by
  cases h with
  | startDownload l r dl pr hdl =>
    constructor <;>
      simp [countPhase, List.count_append, List.count_cons] <;> omega
  | downloadOk l r dl pr =>
    constructor <;>
      simp [countPhase, List.count_append, List.count_cons] <;> omega
  | downloadFail l r dl pr =>
    constructor <;>
      simp [countPhase, List.count_append, List.count_cons] <;> omega
  | startParse l r dl pr hpr =>
    constructor <;>
      simp [countPhase, List.count_append, List.count_cons] <;> omega
  | finishParse l r dl pr =>
    constructor <;>
      simp [countPhase, List.count_append, List.count_cons] <;> omega

theorem batch_reach_inv (n maxDl maxP : Nat) (s : BatchState)
    (h : BatchReachable n maxDl maxP s) :
    countPhase Phase.downloading s + s.dlAvail = maxDl ∧
      countPhase Phase.parsing s + s.parseAvail = maxP := by
  unfold BatchReachable at h
  induction h with
  | refl =>
    constructor <;> simp [initBatch, countPhase, List.count_replicate]
  | tail hab hbc ih =>
    have hstep := batch_step_inv _ _ hbc
    omega

/-- C1: if the source adapter's fetch raises, `fetch_and_process_papers`
returns no report and propagates the failure as a pipeline exception
wrapping the cause; if the fetch succeeds, a complete report is
returned no matter how the downstream adapters (content fetch, parse,
persist, index) behave. -/
theorem claim_C1 (A : Adapters) (opts : RunOptions) (db0 : Db) (elapsed : Nat) :
    (∀ e, A.fetch_papers = Except.error e →
      fetch_and_process_papers A opts db0 elapsed
        = Except.error ("Pipeline execution failed: " ++ e)) ∧
    (∀ papers, A.fetch_papers = Except.ok papers →
      ∃ rep, fetch_and_process_papers A opts db0 elapsed = Except.ok rep) := by
  constructor
  · intro e he
    unfold fetch_and_process_papers
    rw [he]
  · intro papers hp
    cases papers with
    | nil =>
      refine ⟨((⟨0, 0, 0, 0, 0, [], 0⟩ : Results), db0, []), ?_⟩
      unfold fetch_and_process_papers
      rw [hp]
      rfl
    | cons q rest =>
      obtain ⟨res, db, tr, hrun, _, _, _, _, _⟩ :=
        run_components A opts db0 elapsed (q :: rest) hp (by simp)
      exact ⟨(res, db, tr), hrun⟩

theorem claim_C1_witness :
    (fetch_and_process_papers fetchFailAdapters scenarioOpts [] 0
        = Except.error ("Pipeline execution failed: " ++ "arxiv unreachable")) ∧
      ∃ rep, fetch_and_process_papers allOkAdapters scenarioOpts [] 0
        = Except.ok rep :=
  ⟨(claim_C1 fetchFailAdapters scenarioOpts [] 0).1 "arxiv unreachable" rfl,
    (claim_C1 allOkAdapters scenarioOpts [] 0).2 [samplePaper "P1"] rfl⟩

/-- C2 counterexample: in the spec's three-record scenario (content
fetch succeeds for A and C, returns None for B; parse succeeds where
invoked; `fetchContent=true, persist=true, index=false`; persists
succeed), the report counts 3 fetched, 2 downloaded, 2 parsed,
3 stored — but its error list is empty, not a one-entry list with a
fetch-stage error for B: the code only logs a failed download. -/
theorem claim_C2_counterexample :
    ((fetch_and_process_papers scenarioAdapters scenarioOpts [] 7).map
        (fun r => (r.1.papers_fetched, r.1.pdfs_downloaded, r.1.pdfs_parsed,
          r.1.papers_stored, r.1.errors))
      = Except.ok (3, 2, 2, 3, ([] : List String))) ∧
    ¬ ((fetch_and_process_papers scenarioAdapters scenarioOpts [] 7).map
        (fun r => r.1.errors.length) = Except.ok 1) := by
  constructor
  · rfl
  · intro h
    have h2 : (Except.ok 0 : Except String Nat) = Except.ok 1 := by
      rw [← h]
      rfl
    injection h2 with h3
    exact absurd h3 (by decide)

/-- C2 (amended): in the three-record scenario the run returns
`papers_fetched=3, pdfs_downloaded=2, pdfs_parsed=2, papers_stored=3,
papers_indexed=0` with an EMPTY error list (the None returned by the
content fetch for B is logged but never appended to the report's
errors), and the parser is never invoked for B. -/
theorem claim_C2 :
    ((fetch_and_process_papers scenarioAdapters scenarioOpts [] 7).map
        (fun r => (r.1.papers_fetched, r.1.pdfs_downloaded, r.1.pdfs_parsed,
          r.1.papers_stored, r.1.papers_indexed, r.1.errors))
      = Except.ok (3, 2, 2, 3, 0, ([] : List String))) ∧
    ((fetch_and_process_papers scenarioAdapters scenarioOpts [] 7).map
        (fun r => r.2.2.contains (PipeEvent.parseCall "B"))
      = Except.ok false) :=
  ⟨rfl, rfl⟩

/-- C3 counterexample: a run whose single record X suffers BOTH a
parse failure (the parser raises) and an index failure (the indexing
adapter raises) — both stages were invoked, as the trace shows — yet
the report's error list is empty: the code logs these recoverable
failures without appending error entries. -/
theorem claim_C3_counterexample :
    (fetch_and_process_papers parseFailAdapters indexOnOpts [] 5).map
        (fun r => (r.1.errors, r.2.2))
      = Except.ok (([] : List String),
          [PipeEvent.fetchCall "X", PipeEvent.parseCall "X",
            PipeEvent.storeCall "X", PipeEvent.commitEvent "X",
            PipeEvent.indexCall "X"]) :=
  rfl

/-- C3 (amended): of the recoverable per-record failures only a
persist failure appends a string entry to the report's error list,
tagged `DB error for {id}: {cause}` with the record's identifier;
content-fetch None returns, parse failures and index failures are only
logged.  In every case processing continues with the remaining records:
the run still returns a report and its trace is exactly the
concatenation of every record's events. -/
theorem claim_C3 (A : Adapters) (opts : RunOptions) (db0 : Db) (elapsed : Nat)
    (papers : List ArxivPaper) (i : Nat) (hi : i < papers.length) (e : String)
    (hfetch : A.fetch_papers = Except.ok papers)
    (hstore : opts.store_to_db = true) (hsess : opts.has_db_session = true)
    (hdl : ∀ s, A.download_pdf (papers.get ⟨i, hi⟩) ≠ Except.error s)
    (hfail : ∀ c, A.store_raises (papers.get ⟨i, hi⟩) c = some e) :
    ∃ res db tr,
      fetch_and_process_papers A opts db0 elapsed = Except.ok (res, db, tr) ∧
      ("DB error for " ++ (papers.get ⟨i, hi⟩).arxiv_id ++ ": " ++ e)
        ∈ res.errors ∧
      tr = (papers.map (record_events A opts)).flatten := by
  have hne : papers ≠ [] := by
    intro hc
    rw [hc] at hi
    exact Nat.not_lt_zero i hi
  obtain ⟨res, db, tr, hrun, hf, herrs, hs, hdb, htr⟩ :=
    run_components A opts db0 elapsed papers hfetch hne
  refine ⟨res, db, tr, hrun, ?_, htr⟩
  rw [herrs]
  have hmem : papers.get ⟨i, hi⟩ ∈ papers := papers.get_mem i hi
  have hrec : record_errors A opts (papers.get ⟨i, hi⟩)
      = ["DB error for " ++ (papers.get ⟨i, hi⟩).arxiv_id ++ ": " ++ e] :=
    record_errors_store_fail A opts _ e hstore hsess hdl hfail
  refine List.mem_flatten.mpr
    ⟨record_errors A opts (papers.get ⟨i, hi⟩),
      List.mem_map_of_mem _ hmem, ?_⟩
  rw [hrec]
  exact List.mem_singleton_self _

theorem claim_C3_witness :
    ∃ res db tr,
      fetch_and_process_papers storeFailAdapters scenarioOpts [] 3
          = Except.ok (res, db, tr) ∧
        ("DB error for "
            ++ (([samplePaper "Y"].get ⟨0, by decide⟩)).arxiv_id
            ++ ": " ++ "db down") ∈ res.errors ∧
        tr = ([samplePaper "Y"].map
          (record_events storeFailAdapters scenarioOpts)).flatten :=
  claim_C3 storeFailAdapters scenarioOpts [] 3 [samplePaper "Y"] 0 (by decide)
    "db down" rfl rfl rfl (fun s h => Except.noConfusion h) (fun c => rfl)

/-- C8: in every interleaving of the batch download+parse pipelines,
the number of tasks simultaneously inside the download semaphore never
exceeds the semaphore's size, and likewise for the parse semaphore:
every reachable state of the batch keeps both phase counts within the
two independent bounds. -/
theorem claim_C8 (n maxDl maxP : Nat) (s : BatchState)
    (h : BatchReachable n maxDl maxP s) :
    countPhase Phase.downloading s ≤ maxDl ∧
      countPhase Phase.parsing s ≤ maxP := by
  have hinv := batch_reach_inv n maxDl maxP s h
  omega

theorem claim_C8_witness :
    countPhase Phase.downloading (initBatch 4 5 3) ≤ 5 ∧
      countPhase Phase.parsing (initBatch 4 5 3) ≤ 3 :=
  claim_C8 4 5 3 (initBatch 4 5 3) Relation.ReflTransGen.refl

/-- C9 counterexample: a run invoked with the persist option true but
no db session silently skips the persist stage: the single record's
run returns a report with zero records stored, an empty error list and
an unchanged database, instead of surfacing the missing storage handle
as a failure. -/
theorem claim_C9_counterexample :
    (fetch_and_process_papers allOkAdapters noSessionOpts [] 2).map
        (fun r => (r.1.papers_stored, r.1.errors, r.2.1))
      = Except.ok (0, ([] : List String), ([] : Db)) :=
  rfl

/-- C9 (amended): when `store_to_db` is true but no db session is
supplied, the persist stage is silently skipped for every record: the
run stores nothing (`papers_stored = 0`), leaves the database
untouched, and never invokes the persistence adapter (the trace holds
no store call); no failure is surfaced. -/
theorem claim_C9 (A : Adapters) (opts : RunOptions) (db0 : Db) (elapsed : Nat)
    (papers : List ArxivPaper) (res : Results) (db : Db) (tr : List PipeEvent)
    (hfetch : A.fetch_papers = Except.ok papers)
    (hsess : opts.has_db_session = false)
    (hrun : fetch_and_process_papers A opts db0 elapsed
      = Except.ok (res, db, tr)) :
    res.papers_stored = 0 ∧ db = db0 ∧
      ∀ id, PipeEvent.storeCall id ∉ tr := by
  cases papers with
  | nil =>
    unfold fetch_and_process_papers at hrun
    rw [hfetch] at hrun
    simp only [Except.ok.injEq, Prod.mk.injEq] at hrun
    obtain ⟨h1, h2, h3⟩ := hrun
    refine ⟨?_, h2.symm, ?_⟩
    · rw [← h1]
    · intro id hmem
      rw [← h3] at hmem
      exact (List.not_mem_nil _) hmem
  | cons q rest =>
    obtain ⟨res2, db2, tr2, hrun2, hf, he, hs, hd, ht⟩ :=
      run_components A opts db0 elapsed (q :: rest) hfetch (by simp)
    rw [hrun2] at hrun
    simp only [Except.ok.injEq, Prod.mk.injEq] at hrun
    obtain ⟨hres, hdb2, htr2⟩ := hrun
    subst hres
    subst hdb2
    subst htr2
    refine ⟨?_, ?_, ?_⟩
    · rw [hs]
      refine List.sum_eq_zero ?_
      intro x hx
      rcases List.mem_map.mp hx with ⟨p, hp, hxe⟩
      rw [← hxe]
      exact record_stored_delta_no_session A opts p hsess
    · rw [hd, run_db_no_session A opts _ db0 hsess]
    · intro id hmem
      rw [ht] at hmem
      rcases List.mem_flatten.mp hmem with ⟨l, hl, hx⟩
      rcases List.mem_map.mp hl with ⟨p, hp, hle⟩
      rw [← hle] at hx
      exact storeCall_not_mem_record_events A opts p id hsess hx

theorem claim_C9_witness :
    ({ papers_fetched := 1, pdfs_downloaded := 1, pdfs_parsed := 1,
        papers_stored := 0, papers_indexed := 0, errors := [],
        processing_time := 2 } : Results).papers_stored = 0 ∧
      ([] : Db) = ([] : Db) ∧
      ∀ id, PipeEvent.storeCall id
        ∉ [PipeEvent.fetchCall "P1", PipeEvent.parseCall "P1"] :=
  claim_C9 allOkAdapters noSessionOpts [] 2 [samplePaper "P1"]
    { papers_fetched := 1, pdfs_downloaded := 1, pdfs_parsed := 1,
      papers_stored := 0, papers_indexed := 0, errors := [],
      processing_time := 2 }
    [] [PipeEvent.fetchCall "P1", PipeEvent.parseCall "P1"] rfl rfl rfl

/-- C10: when the source adapter succeeds with an empty record list,
the run returns immediately a report with every counter 0, an empty
error list and `processing_time = 0` (the elapsed time is not
measured on this path), without invoking any downstream adapter
(empty trace) and without touching the database. -/
theorem claim_C10 (A : Adapters) (opts : RunOptions) (db0 : Db) (elapsed : Nat)
    (hfetch : A.fetch_papers = Except.ok []) :
    fetch_and_process_papers A opts db0 elapsed
      = Except.ok
        ({ papers_fetched := 0, pdfs_downloaded := 0, pdfs_parsed := 0,
            papers_stored := 0, papers_indexed := 0, errors := [],
            processing_time := 0 }, db0, []) := by
  unfold fetch_and_process_papers
  rw [hfetch]
  rfl

theorem claim_C10_witness :
    fetch_and_process_papers emptyFetchAdapters scenarioOpts [] 9
      = Except.ok
        ({ papers_fetched := 0, pdfs_downloaded := 0, pdfs_parsed := 0,
            papers_stored := 0, papers_indexed := 0, errors := [],
            processing_time := 0 }, ([] : Db), []) :=
  claim_C10 emptyFetchAdapters scenarioOpts [] 9 rfl

/-- C4: with `fetchContent=true` and `persist=true`, if the parser
fails (raises or returns None) on every call — while the content fetch
never raises and the store never raises — every record the source
adapter yielded is persisted as the metadata-only row: it is found in
the final database under its identifier with `pdf_processed = false`
and every metadata field (identifier, title, authors, abstract,
categories, published date, content URL) populated from the record. -/
theorem claim_C4 (A : Adapters) (opts : RunOptions) (db0 : Db) (elapsed : Nat)
    (papers : List ArxivPaper)
    (hfetch : A.fetch_papers = Except.ok papers)
    (hnodup : (papers.map ArxivPaper.arxiv_id).Nodup)
    (hpp : opts.process_pdfs = true) (hstore : opts.store_to_db = true)
    (hsess : opts.has_db_session = true)
    (hparse : ∀ path c, A.parse_pdf path ≠ Except.ok (some c))
    (hdl : ∀ p s, A.download_pdf p ≠ Except.error s)
    (hok : ∀ p c, A.store_raises p c = none) :
    ∃ res db tr,
      fetch_and_process_papers A opts db0 elapsed = Except.ok (res, db, tr) ∧
      ∀ p ∈ papers, ∃ d,
        dbFind db p.arxiv_id = some d ∧
        d.pdf_processed = false ∧
        d.arxiv_id = p.arxiv_id ∧ d.title = p.title ∧ d.authors = p.authors ∧
        d.abstract = p.abstract ∧ d.categories = p.categories ∧
        d.published_date = p.published_date ∧ d.pdf_url = p.pdf_url := by
  cases papers with
  | nil =>
    refine ⟨(⟨0, 0, 0, 0, 0, [], 0⟩ : Results), db0, [], ?_, ?_⟩
    · unfold fetch_and_process_papers
      rw [hfetch]
      rfl
    · intro p hp
      cases hp
  | cons q rest =>
    obtain ⟨res, db, tr, hrun, hf, he, hs, hdb, ht⟩ :=
      run_components A opts db0 elapsed (q :: rest) hfetch (by simp)
    refine ⟨res, db, tr, hrun, ?_⟩
    intro p hp
    have hrs : record_stored A opts p = some (store_single_paper_data p none) :=
      record_stored_metadata_only A opts p hstore hsess hparse (hdl p) (hok p)
    have hfind : dbFind db p.arxiv_id = some (store_single_paper_data p none) := by
      rw [hdb]
      exact dbFind_run_db_of_stored A opts (q :: rest) db0 p _ hnodup hp hrs
    exact ⟨store_single_paper_data p none, hfind, rfl, rfl, rfl, rfl, rfl,
      rfl, rfl, rfl⟩

theorem claim_C4_witness :
    ∃ res db tr,
      fetch_and_process_papers parseNeverAdapters scenarioOpts [] 6
          = Except.ok (res, db, tr) ∧
        ∀ p ∈ [samplePaper "M1", samplePaper "M2"], ∃ d,
          dbFind db p.arxiv_id = some d ∧
          d.pdf_processed = false ∧
          d.arxiv_id = p.arxiv_id ∧ d.title = p.title ∧ d.authors = p.authors ∧
          d.abstract = p.abstract ∧ d.categories = p.categories ∧
          d.published_date = p.published_date ∧ d.pdf_url = p.pdf_url :=
  claim_C4 parseNeverAdapters scenarioOpts [] 6
    [samplePaper "M1", samplePaper "M2"] rfl (by decide) rfl rfl rfl
    (fun path c h => Option.noConfusion (Except.ok.inj h))
    (fun p s h => Except.noConfusion h)
    (fun p c => rfl)

/-- C5: every row written by the pipeline's persist operation keeps
the invariant that the processed flag is true exactly when the
parsed-content fields (raw text, sections, references) are populated:
if the initial table satisfies it, so does the whole table after any
run; moreover every metadata-only row construction — of the per-record
store and of the batch store variant, including its
serialization-failure fallback — sets `pdf_processed = false`. -/
theorem claim_C5 (A : Adapters) (opts : RunOptions) (db0 : Db) (elapsed : Nat)
    (res : Results) (db : Db) (tr : List PipeEvent)
    (hdb0 : ∀ entry ∈ db0, flagOk entry.2)
    (hrun : fetch_and_process_papers A opts db0 elapsed
      = Except.ok (res, db, tr)) :
    (∀ entry ∈ db, flagOk entry.2) ∧
      (∀ paper, (store_single_paper_data paper none).pdf_processed = false) ∧
      (∀ paper parsed, flagOk (store_papers_to_db_data paper parsed)) ∧
      (∀ paper e,
        (store_papers_to_db_data paper (some (Except.error e))).pdf_processed
          = false) ∧
      (∀ paper, (store_papers_to_db_data paper none).pdf_processed = false) := by
  refine ⟨?_, fun paper => rfl, store_papers_to_db_data_flagOk,
    fun paper e => rfl, fun paper => rfl⟩
  cases hfp : A.fetch_papers with
  | error e =>
    unfold fetch_and_process_papers at hrun
    rw [hfp] at hrun
    exact Except.noConfusion hrun
  | ok papers =>
    cases papers with
    | nil =>
      unfold fetch_and_process_papers at hrun
      rw [hfp] at hrun
      simp only [Except.ok.injEq, Prod.mk.injEq] at hrun
      obtain ⟨h1, h2, h3⟩ := hrun
      rw [← h2]
      exact hdb0
    | cons q rest =>
      obtain ⟨res2, db2, tr2, hrun2, _, _, _, hdb2, _⟩ :=
        run_components A opts db0 elapsed (q :: rest) hfp (by simp)
      rw [hrun2] at hrun
      simp only [Except.ok.injEq, Prod.mk.injEq] at hrun
      obtain ⟨h1, h2, h3⟩ := hrun
      rw [← h2, hdb2]
      exact run_db_flagOk A opts (q :: rest) db0 hdb0

theorem claim_C5_witness :
    (∀ entry ∈ ([] : Db), flagOk entry.2) ∧
      (∀ paper, (store_single_paper_data paper none).pdf_processed = false) ∧
      (∀ paper parsed, flagOk (store_papers_to_db_data paper parsed)) ∧
      (∀ paper e,
        (store_papers_to_db_data paper (some (Except.error e))).pdf_processed
          = false) ∧
      (∀ paper, (store_papers_to_db_data paper none).pdf_processed = false) :=
  claim_C5 emptyFetchAdapters scenarioOpts [] 0
    (⟨0, 0, 0, 0, 0, [], 0⟩ : Results) [] []
    (fun entry h => absurd h (List.not_mem_nil entry)) rfl

/-- C6: running the pipeline twice with identical adapter responses
from an empty table yields the same stored-record count (and the same
key set) as running it once: the second run's identifier-keyed upserts
only update rows the first run created, creating no duplicates. -/
theorem claim_C6 (A : Adapters) (opts : RunOptions) (elapsed1 elapsed2 : Nat)
    (papers : List ArxivPaper) (r1 : Results) (db1 : Db) (t1 : List PipeEvent)
    (r2 : Results) (db2 : Db) (t2 : List PipeEvent)
    (hfetch : A.fetch_papers = Except.ok papers)
    (h1 : fetch_and_process_papers A opts [] elapsed1 = Except.ok (r1, db1, t1))
    (h2 : fetch_and_process_papers A opts db1 elapsed2
      = Except.ok (r2, db2, t2)) :
    db2.length = db1.length ∧ dbKeys db2 = dbKeys db1 := by
  cases papers with
  | nil =>
    unfold fetch_and_process_papers at h1 h2
    rw [hfetch] at h1 h2
    simp only [Except.ok.injEq, Prod.mk.injEq] at h1 h2
    obtain ⟨_, hdb1, _⟩ := h1
    obtain ⟨_, hdb2, _⟩ := h2
    rw [← hdb2, ← hdb1]
    exact ⟨rfl, rfl⟩
  | cons q rest =>
    obtain ⟨res1, dbx1, tr1, hrun1, _, _, _, hdbx1, _⟩ :=
      run_components A opts [] elapsed1 (q :: rest) hfetch (by simp)
    obtain ⟨res2, dbx2, tr2, hrun2, _, _, _, hdbx2, _⟩ :=
      run_components A opts db1 elapsed2 (q :: rest) hfetch (by simp)
    rw [hrun1] at h1
    rw [hrun2] at h2
    simp only [Except.ok.injEq, Prod.mk.injEq] at h1 h2
    obtain ⟨_, hd1, _⟩ := h1
    obtain ⟨_, hd2, _⟩ := h2
    have hdb1e : db1 = run_db A opts (q :: rest) [] := by rw [← hd1, hdbx1]
    have hdb2e : db2 = run_db A opts (q :: rest) db1 := by rw [← hd2, hdbx2]
    have hall : ∀ p ∈ (q :: rest), ∀ x, record_stored A opts p = some x →
        x.arxiv_id ∈ dbKeys db1 := by
      intro p hp x hx
      rw [hdb1e]
      exact stored_mem_dbKeys_run_db A opts (q :: rest) [] p x hp hx
    have hmain := run_db_keys_and_length A opts (q :: rest) db1 hall
    rw [hdb2e]
    exact ⟨hmain.2, hmain.1⟩

theorem claim_C6_witness :
    ([(("P1" : String),
        store_single_paper_data (samplePaper "P1") (some sampleContent))]
      : Db).length
      = ([(("P1" : String),
          store_single_paper_data (samplePaper "P1") (some sampleContent))]
        : Db).length ∧
      dbKeys [(("P1" : String),
          store_single_paper_data (samplePaper "P1") (some sampleContent))]
        = dbKeys [(("P1" : String),
            store_single_paper_data (samplePaper "P1") (some sampleContent))] :=
  claim_C6 allOkAdapters scenarioOpts 4 5 [samplePaper "P1"]
    (⟨1, 1, 1, 1, 0, [], 4⟩ : Results)
    [(("P1" : String),
      store_single_paper_data (samplePaper "P1") (some sampleContent))]
    [PipeEvent.fetchCall "P1", PipeEvent.parseCall "P1",
      PipeEvent.storeCall "P1", PipeEvent.commitEvent "P1"]
    (⟨1, 1, 1, 1, 0, [], 5⟩ : Results)
    [(("P1" : String),
      store_single_paper_data (samplePaper "P1") (some sampleContent))]
    [PipeEvent.fetchCall "P1", PipeEvent.parseCall "P1",
      PipeEvent.storeCall "P1", PipeEvent.commitEvent "P1"]
    rfl rfl rfl

/-- C7: records are processed strictly sequentially and each record's
store commits before the next record is touched: the run's trace splits
at record i into the events of records 0..i followed by the events of
records i+1.., and when record i's persist runs and succeeds its commit
event lies inside the first part — before any event of record i+1. -/
theorem claim_C7 (A : Adapters) (opts : RunOptions) (db0 : Db) (elapsed : Nat)
    (papers : List ArxivPaper) (res : Results) (db : Db) (tr : List PipeEvent)
    (i : Nat) (hi : i < papers.length)
    (hfetch : A.fetch_papers = Except.ok papers)
    (hrun : fetch_and_process_papers A opts db0 elapsed
      = Except.ok (res, db, tr))
    (hstore : opts.store_to_db = true) (hsess : opts.has_db_session = true)
    (hdl : ∀ s, A.download_pdf (papers.get ⟨i, hi⟩) ≠ Except.error s)
    (hra : ∀ c, A.store_raises (papers.get ⟨i, hi⟩) c = none) :
    tr = ((papers.take (i+1)).map (record_events A opts)).flatten
        ++ ((papers.drop (i+1)).map (record_events A opts)).flatten ∧
      PipeEvent.commitEvent (papers.get ⟨i, hi⟩).arxiv_id
        ∈ ((papers.take (i+1)).map (record_events A opts)).flatten := by
  have hne : papers ≠ [] := by
    intro hc
    rw [hc] at hi
    exact Nat.not_lt_zero i hi
  obtain ⟨res2, db2, tr2, hrun2, _, _, _, _, htr2⟩ :=
    run_components A opts db0 elapsed papers hfetch hne
  rw [hrun2] at hrun
  simp only [Except.ok.injEq, Prod.mk.injEq] at hrun
  obtain ⟨_, _, htr⟩ := hrun
  constructor
  · rw [← htr, htr2]
    conv_lhs => rw [← List.take_append_drop (i + 1) papers]
    rw [List.map_append, List.flatten_append]
  · have htake : papers.take (i + 1)
        = papers.take i ++ [papers.get ⟨i, hi⟩] := by
      rw [List.take_succ]
      congr 1
      rw [List.getElem?_eq_getElem hi]
      rfl
    have hmemtake : papers.get ⟨i, hi⟩ ∈ papers.take (i + 1) := by
      rw [htake]
      exact List.mem_append_right _ (List.mem_singleton_self _)
    exact List.mem_flatten.mpr
      ⟨record_events A opts (papers.get ⟨i, hi⟩),
        List.mem_map_of_mem _ hmemtake,
        commit_mem_record_events A opts _ hstore hsess hdl hra⟩

theorem claim_C7_witness :
    ([PipeEvent.fetchCall "P1", PipeEvent.parseCall "P1",
        PipeEvent.storeCall "P1", PipeEvent.commitEvent "P1"]
      = (([samplePaper "P1"].take 1).map
          (record_events allOkAdapters scenarioOpts)).flatten
        ++ (([samplePaper "P1"].drop 1).map
          (record_events allOkAdapters scenarioOpts)).flatten) ∧
      PipeEvent.commitEvent (([samplePaper "P1"].get ⟨0, by decide⟩)).arxiv_id
        ∈ (([samplePaper "P1"].take 1).map
          (record_events allOkAdapters scenarioOpts)).flatten :=
  claim_C7 allOkAdapters scenarioOpts [] 4 [samplePaper "P1"]
    (⟨1, 1, 1, 1, 0, [], 4⟩ : Results)
    [(("P1" : String),
      store_single_paper_data (samplePaper "P1") (some sampleContent))]
    [PipeEvent.fetchCall "P1", PipeEvent.parseCall "P1",
      PipeEvent.storeCall "P1", PipeEvent.commitEvent "P1"]
    0 (by decide) rfl rfl rfl rfl
    (fun s h => Except.noConfusion h) (fun c => rfl)

end ArxivRag
